import Mathlib

/-!
Shallow embedding of the ESP32-LightManager core (light value model,
composite power-sharing engine, and event-node permission/dispatch logic)
together with theorems settling the specification claims.

Conventions used throughout:
* `uint32_t` values are `Nat`, with an explicit `% U32` wherever the C++
  expression can wrap (unsigned overflow is well defined in C++).
* `int32_t` values are `Int`.
* `float` is modelled as `ℚ` (the claims about power concern which formula
  is computed, not floating-point rounding).
* fallible arithmetic (`%` by a member's max value, member power division)
  is embedded in `Option`: a division or modulus whose divisor is zero
  yields `none`, so "no division by zero is evaluated" is `= some _`.
* `fade_to_value` commits the requested raw value: the LEDC driver
  (`esp32ledc.cpp`, `chDutyPhase`) stores the duty verbatim, so the
  committed state after a (possibly faded) transition is the target value.
-/

namespace LightMgr

/-- The `uint32_t` modulus. -/
def U32 : Nat := 4294967296

/-- Light source kinds, from `light_generics.hpp` (`enum class lightsource_t`). -/
inductive lightsource_t where
  | generic
  | constant
  | dimmable
  | rgb
  | dynamic
  | composite
deriving DecidableEq

/-- Composite power sharing policies, from `light_generics.hpp` (`enum class power_share_t`). -/
inductive power_share_t where
  | incremental
  | equal
  | phaseshift
deriving DecidableEq

/-- Luma curve selector. The curve library header (`luma_curves.hpp`) is not part
of the sources; these are the tags the sources refer to
(`luma::curve::linear`, `::binary`, `::cie1931`). -/
inductive curve where
  | binary
  | linear
  | cie1931
deriving DecidableEq

/-- Modelled from the spec: the LumaCurve component (spec §2 item 1, §4.1) lives in
`luma_curves.hpp`, which is not under `src/`.  The spec describes `curveMap` as the
pure numeric forward mapping of a value expressed on an external scale `[0,scale]`
onto the raw range `[0,maxval]`, with defensive divide-by-zero avoidance required
in curve math (§4.1 failure policy).  We model the `linear` curve as the
proportional map and guard the zero divisor; the claims that use `curveMap` are
stated for the linear curve. -/
def curveMap (_c : curve) (v : Nat) (maxval : Nat) (scale : Nat) : Nat :=
  if scale = 0 then 0 else v * maxval / scale

/-- Modelled from the spec: inverse curve mapping from a raw value back to the
external scale (spec §4.1, `getValueScaled`), the mathematical inverse of
`curveMap` up to integer quantization, again with the divide-by-zero guard the
spec requires. -/
def curveUnMap (_c : curve) (v : Nat) (maxval : Nat) (scale : Nat) : Nat :=
  if maxval = 0 then 0 else v * scale / maxval

/-- State of a single (leaf) generic/dimmable light, the fields of `GenericLight`
(`light_generics.hpp`) plus the driver-backed raw value (`getValue`/`getMaxValue`
are driver queries; the LEDC driver stores the duty verbatim). -/
structure GLight where
  value : Nat
  maxValue : Nat
  luma : curve
  fadetime : Int
  brtscale : Int
  increment : Int
  power : ℚ
deriving DecidableEq

namespace GLight

/-- `GenericLight::fade_to_value` (resp. `set_to_value`): commit the target raw value. -/
def fade_to_value (g : GLight) (value : Nat) (_duration : Int) : GLight :=
  { g with value := value }

/-- `GenericLight::goValue` (`light_generics.cpp:44`): curve-map the value when the
curve is non-linear (same max scale on both sides), default the duration, fade. -/
def goValue (g : GLight) (value : Nat) (duration : Int) : GLight :=
  let value := if g.luma ≠ curve.linear then curveMap g.luma value g.maxValue g.maxValue else value
  let duration := if duration < 0 then g.fadetime else duration
  g.fade_to_value value duration

/-- `GenericLight::goMax`. -/
def goMax (g : GLight) (duration : Int) : GLight := g.goValue g.maxValue duration

/-- `GenericLight::goMin`. -/
def goMin (g : GLight) (duration : Int) : GLight := g.goValue 1 duration

/-- `GenericLight::goOn`. -/
def goOn (g : GLight) (duration : Int) : GLight := g.goMax duration

/-- `GenericLight::goOff`. -/
def goOff (g : GLight) (duration : Int) : GLight := g.goValue 0 duration

/-- `GenericLight::goToggle` (`light_generics.cpp:96`). -/
def goToggle (g : GLight) (duration : Int) : GLight :=
  if g.value ≠ 0 then g.goOff duration else g.goOn duration

/-- `GenericLight::goValueScaled` (`light_generics.cpp:56`): default the scale,
clamp to `goMax`/`goOff` at the ends, otherwise fade to the curve-mapped value.
The C++ comparison `value >= scale` converts the `int32_t` scale to `uint32_t`;
after defaulting, the scale is positive in every reachable state (`brtscale`
has no setter and is initialized to 100), so `Int.toNat` is the conversion. -/
def goValueScaled (g : GLight) (value : Nat) (scale : Int) (duration : Int) : GLight :=
  let scale := if scale ≤ 0 then g.brtscale else scale
  if value ≥ scale.toNat then g.goMax duration
  else if value = 0 then g.goOff duration
  else g.fade_to_value (curveMap g.luma value g.maxValue scale.toNat) duration

/-- `GenericLight::getValueScaled` (`light_generics.cpp:103`). -/
def getValueScaled (g : GLight) (scale : Int) : Nat :=
  let scale := if scale ≤ 0 then g.brtscale else scale
  curveUnMap g.luma g.value g.maxValue scale.toNat

/-- `GenericLight::goStepScaled` (`light_generics.cpp:71`).  `cur` is `uint32_t`
and `step` is `int32_t`, so the C++ test `cur + step <= 0` is evaluated in
unsigned 32-bit arithmetic: the sum wraps modulo `2^32` and the test holds only
when the wrapped sum is exactly 0.  The wrapped sum is then what is passed on to
`goValueScaled`. -/
def goStepScaled (g : GLight) (step : Int) (scale : Int) (duration : Int) : GLight :=
  if step = 0 then g
  else
    let cur : Nat := g.getValueScaled scale
    let sum : Nat := (((cur : Int) + step) % (U32 : Int)).toNat
    if sum = 0 then g.goOff (-1)
    else g.goValueScaled sum scale duration

/-- `GenericLight::goIncr`. -/
def goIncr (g : GLight) (duration : Int) : GLight :=
  g.goStepScaled g.increment g.brtscale duration

/-- `GenericLight::goDecr`. -/
def goDecr (g : GLight) (duration : Int) : GLight :=
  g.goStepScaled (-1 * g.increment) g.brtscale duration

/-- `GenericLight::goStep`: `goValue(getValue() + step)`, the sum again evaluated
in unsigned 32-bit arithmetic. -/
def goStep (g : GLight) (step : Int) (duration : Int) : GLight :=
  g.goValue ((((g.value : Int) + step) % (U32 : Int)).toNat) duration

/-- `GenericLight::setMaxPower` (`light_generics.cpp:83`): clamp negative powers
to 0, store, and return the argument. -/
def setMaxPower (g : GLight) (p : ℚ) : ℚ × GLight :=
  if p < 0 then (p, { g with power := 0 }) else (p, { g with power := p })

/-- `GenericLight::getCurrentPower` (`light_generics.cpp:92`):
`getMaxPower() * getValue() / getMaxValue()`, float arithmetic modelled in `ℚ`. -/
def getCurrentPower (g : GLight) : ℚ :=
  g.power * (g.value : ℚ) / (g.maxValue : ℚ)

end GLight

/-- `ConstantLight` (`light_generics.hpp:169`): a binary-curve light of max value 1. -/
structure ConstantLight where
  power : ℚ
  value : Nat
deriving DecidableEq

/-- `ConstantLight::getMaxValue` returns 1. -/
def ConstantLight.getMaxValue (_l : ConstantLight) : Nat := 1

/-- `ConstantLight::getCurrentPower` (`light_generics.hpp:174`):
`return getMaxPower();` — unconditionally, with no on/off check. -/
def ConstantLight.getCurrentPower (l : ConstantLight) : ℚ := l.power

/-- `GPIOLight`, the concrete constant light (`light_drv_ledc.hpp:106`). -/
structure GPIOLight where
  power : ℚ
  value : Nat
deriving DecidableEq

/-- `GPIOLight::getCurrentPower` (`light_drv_ledc.hpp:129`):
`return getValue() ? power : 0;`. -/
def GPIOLight.getCurrentPower (l : GPIOLight) : ℚ :=
  if l.value ≠ 0 then l.power else 0

/-- A member light held by a `CompositeLight` (the `GenericLight` interface a
member exposes to the composite: kind, curve, driver-backed value and max value,
duty shift, rated power).  `fade_to_value` on a member commits the value. -/
structure MemberLight where
  kind : lightsource_t
  curve : curve
  maxValue : Nat
  value : Nat
  dutyShift : Nat
  power : ℚ
deriving DecidableEq

namespace MemberLight

/-- Member `fade_to_value` (resp. `set_to_value`): commit the target raw value. -/
def fade_to_value (m : MemberLight) (value : Nat) (_duration : Int) : MemberLight :=
  { m with value := value }

/-- One-argument `setDutyShift(dshift)` (`light_drv_ledc.hpp:85`): set only the
phase offset. -/
def setDutyShift1 (m : MemberLight) (dshift : Nat) : MemberLight :=
  { m with dutyShift := dshift }

/-- Two-argument `setDutyShift(duty, dshift)` (`light_generics.hpp:192`,
`light_drv_ledc.hpp:93`): set duty and phase offset. -/
def setDutyShift2 (m : MemberLight) (duty : Nat) (dshift : Nat) : MemberLight :=
  { m with value := duty, dutyShift := dshift }

/-- A member's `getCurrentPower()` as the composite sums it, with the division
checked: the `constant` kind overrides to `getMaxPower()` with no division
(`light_generics.hpp:174`), every other kind uses the `GenericLight` default
`maxPower * value / maxValue` (`light_generics.cpp:92`), which divides by the
member's max value. -/
def getCurrentPower (m : MemberLight) : Option ℚ :=
  match m.kind with
  | lightsource_t.constant => some m.power
  | _ => if m.maxValue = 0 then none else some (m.power * (m.value : ℚ) / (m.maxValue : ℚ))

end MemberLight

/-- Checked modulus: `a % b` fails (C++ undefined behaviour) when `b = 0`. -/
def modChk (a b : Nat) : Option Nat :=
  if b = 0 then none else some (a % b)

/-- `CompositeLight` state (`light_generics.hpp:202`): the kind all members must
share, the power-share policy, the cached aggregate max (`combined_value`), the
inherited `GenericLight` fields, and the ordered member list `(id, light)`.
`LList` is an external container; `add` appends at the tail and `head()` is the
first element added (the sources rely on insertion order: incremental
distribution starts "from the first added source"). -/
structure CompositeLight where
  sub_type : lightsource_t
  ps : power_share_t
  combined_value : Nat
  luma : curve
  fadetime : Int
  brtscale : Int
  power : ℚ
  ls : List (Nat × MemberLight)
deriving DecidableEq

namespace CompositeLight

/-- `CompositeLight::exist` (`light_generics.cpp:135`). -/
def exist (c : CompositeLight) (id : Nat) : Bool :=
  c.ls.any (fun p => p.1 = id)

/-- `CompositeLight::addLight` (`light_generics.cpp:143`): reject a duplicate id,
reject a kind that differs from `sub_type`; otherwise append the member, update
`combined_value` per policy (first member's max for equal/phaseshift, running
sum for incremental — where a binary-curve member also demotes the composite
curve to linear), and accumulate the member's max power. -/
def addLight (c : CompositeLight) (gl : MemberLight) (id : Nat) : Bool × CompositeLight :=
  if c.exist id then (false, c)
  else if gl.kind ≠ c.sub_type then (false, c)
  else
    let ls' := c.ls ++ [(id, gl)]
    let c1 : CompositeLight :=
      match c.ps with
      | power_share_t.equal | power_share_t.phaseshift =>
          if ls'.length = 1 then { c with ls := ls', combined_value := gl.maxValue }
          else { c with ls := ls' }
      | power_share_t.incremental =>
          let c2 := { c with ls := ls', combined_value := c.combined_value + gl.maxValue }
          if gl.curve = curve.binary then { c2 with luma := curve.linear } else c2
    (true, { c1 with power := c1.power + gl.power })

/-- `CompositeLight::getValue_incremental` (`light_generics.cpp:187`). -/
def getValue_incremental (c : CompositeLight) : Nat :=
  (c.ls.map (fun p => p.2.value)).sum

/-- `CompositeLight::getValue` (`light_generics.cpp:196`). -/
def getValue (c : CompositeLight) : Nat :=
  match c.ps with
  | power_share_t.equal | power_share_t.phaseshift =>
      match c.ls with
      | [] => 0
      | p :: _ => p.2.value
  | power_share_t.incremental => c.getValue_incremental

/-- `CompositeLight::getMaxValue` (`light_generics.hpp:290`). -/
def getMaxValue (c : CompositeLight) : Nat := c.combined_value

/-- `CompositeLight::getCurrentPower` (`light_generics.cpp:210`): `equal`
multiplies the first member's power by the member count (0 when empty), the
other policies sum every member's power.  Member power divisions are checked. -/
def getCurrentPower (c : CompositeLight) : Option ℚ :=
  match c.ps with
  | power_share_t.equal =>
      match c.ls with
      | [] => some 0
      | p :: _ => (p.2.getCurrentPower).map (fun q => q * (c.ls.length : ℚ))
  | _ => (c.ls.mapM (fun p : Nat × MemberLight => p.2.getCurrentPower)).map (fun l => l.sum)

/-- `CompositeLight::setMaxPower` (`light_generics.hpp:286`):
`{ return power; }` — combined power change is not supported; the stored state
is untouched and the existing power is returned. -/
def setMaxPower (c : CompositeLight) (_p : ℚ) : ℚ × CompositeLight :=
  (c.power, c)

end CompositeLight

/-- `CompositeLight::goValueIncremental` (`light_generics.cpp:240`): members are
visited in insertion order; a member whose max fits in the remainder is driven
to its max and the remainder decreases, otherwise the member receives the
remainder and every later member is driven to 0. -/
def goValueIncremental : List (Nat × MemberLight) → Nat → Int → List (Nat × MemberLight)
  | [], _, _ => []
  | p :: rest, value, duration =>
    let m := p.2.maxValue
    if value ≥ m then
      (p.1, p.2.fade_to_value m duration) :: goValueIncremental rest (value - m) duration
    else
      (p.1, p.2.fade_to_value value duration) :: goValueIncremental rest 0 duration

/-- `CompositeLight::goValueEqual` (`light_generics.cpp:257`): every member is
faded to the same value. -/
def goValueEqual (ls : List (Nat × MemberLight)) (value : Nat) (duration : Int) :
    List (Nat × MemberLight) :=
  ls.map (fun p => (p.1, p.2.fade_to_value value duration))

/-- Body of one iteration of the first `goValuePhaseShift` loop for a single
member (`light_generics.cpp:291`): with a nonzero duration, a member whose
current `dutyShift + value` (wrapping in `uint32_t`) exceeds its max gets the
offset first and then the fade; otherwise the fade is issued and the flag is
reported so the offset is applied by the second loop.  With duration 0 duty
and offset are set at once. -/
def psStep1 (p : Nat × MemberLight) (value : Nat) (duration : Int) (duty_shift : Nat) :
    MemberLight × Bool :=
  if duration ≠ 0 then
    if (p.2.dutyShift + value) % U32 > p.2.maxValue then
      ((p.2.setDutyShift1 duty_shift).fade_to_value value duration, false)
    else
      (p.2.fade_to_value value duration, true)
  else
    (p.2.setDutyShift2 value duty_shift, false)

/-- First loop of `CompositeLight::goValuePhaseShift` (`light_generics.cpp:286`).
`duty_shift = value * channel % maxValue` is evaluated in `uint32_t`
arithmetic, so the product wraps modulo `2^32`; the modulus by the member's max
is checked.  Returns the updated members and the `flags` bitmask of channels
whose offset application is postponed. -/
def psPass1 : List (Nat × MemberLight) → Nat → Int → Nat →
    Option (List (Nat × MemberLight) × Nat)
  | [], _, _, _ => some ([], 0)
  | p :: rest, value, duration, channel =>
    match modChk (value * channel % U32) p.2.maxValue with
    | none => none
    | some duty_shift =>
      match psPass1 rest value duration (channel + 1) with
      | none => none
      | some (rest', flags) =>
          some ((p.1, (psStep1 p value duration duty_shift).1) :: rest',
            if (psStep1 p value duration duty_shift).2 then flags ||| 2 ^ channel else flags)

/-- Second loop of `CompositeLight::goValuePhaseShift` (`light_generics.cpp:315`):
apply the postponed `setDutyShift(value, duty_shift)` to exactly the channels
whose bit is set in `flags`. -/
def psPass2 : List (Nat × MemberLight) → Nat → Nat → Nat →
    Option (List (Nat × MemberLight))
  | [], _, _, _ => some []
  | p :: rest, value, flags, channel =>
    if flags.testBit channel then
      match modChk (value * channel % U32) p.2.maxValue with
      | none => none
      | some duty_shift =>
        match psPass2 rest value flags (channel + 1) with
        | none => none
        | some rest' => some ((p.1, p.2.setDutyShift2 value duty_shift) :: rest')
    else
      match psPass2 rest value flags (channel + 1) with
      | none => none
      | some rest' => some ((p.1, p.2) :: rest')

/-- `CompositeLight::goValuePhaseShift` (`light_generics.cpp:278`): fall back to
the equal policy when the first member is not dimmable, otherwise run the two
loops (the second only when some channel was flagged).  The function is only
dispatched to with a nonempty member list (`goValueComposite` checks size). -/
def goValuePhaseShift (ls : List (Nat × MemberLight)) (value : Nat) (duration : Int) :
    Option (List (Nat × MemberLight)) :=
  match ls with
  | [] => some []
  | first :: _ =>
    if first.2.kind ≠ lightsource_t.dimmable then some (goValueEqual ls value duration)
    else
      match psPass1 ls value duration 0 with
      | none => none
      | some (ls1, flags) => if flags ≠ 0 then psPass2 ls1 value flags 0 else some ls1

namespace CompositeLight

/-- `CompositeLight::goValueComposite` (`light_generics.cpp:263`): skip when the
container is empty, otherwise dispatch on the power-share policy. -/
def goValueComposite (c : CompositeLight) (value : Nat) (duration : Int) :
    Option CompositeLight :=
  if c.ls = [] then some c
  else
    match c.ps with
    | power_share_t.equal => some { c with ls := goValueEqual c.ls value duration }
    | power_share_t.phaseshift =>
        (goValuePhaseShift c.ls value duration).map (fun l => { c with ls := l })
    | power_share_t.incremental => some { c with ls := goValueIncremental c.ls value duration }

/-- `GenericLight::goValue` as inherited by `CompositeLight`: the virtual
`fade_to_value` is `goValueComposite` (`light_generics.hpp:276`) and
`getMaxValue()` is `combined_value`. -/
def goValue (c : CompositeLight) (value : Nat) (duration : Int) : Option CompositeLight :=
  let value := if c.luma ≠ curve.linear then curveMap c.luma value c.getMaxValue c.getMaxValue else value
  let duration := if duration < 0 then c.fadetime else duration
  c.goValueComposite value duration

/-- `goMax` on a composite. -/
def goMax (c : CompositeLight) (duration : Int) : Option CompositeLight :=
  c.goValue c.getMaxValue duration

/-- `goMin` on a composite. -/
def goMin (c : CompositeLight) (duration : Int) : Option CompositeLight :=
  c.goValue 1 duration

/-- `goOn` on a composite. -/
def goOn (c : CompositeLight) (duration : Int) : Option CompositeLight :=
  c.goMax duration

/-- `goOff` on a composite. -/
def goOff (c : CompositeLight) (duration : Int) : Option CompositeLight :=
  c.goValue 0 duration

/-- `goToggle` on a composite. -/
def goToggle (c : CompositeLight) (duration : Int) : Option CompositeLight :=
  if c.getValue ≠ 0 then c.goOff duration else c.goOn duration

/-- `getValueScaled` on a composite. -/
def getValueScaled (c : CompositeLight) (scale : Int) : Nat :=
  let scale := if scale ≤ 0 then c.brtscale else scale
  curveUnMap c.luma c.getValue c.getMaxValue scale.toNat

/-- `goValueScaled` on a composite (`GenericLight::goValueScaled` with the
composite's virtual `fade_to_value`). -/
def goValueScaled (c : CompositeLight) (value : Nat) (scale : Int) (duration : Int) :
    Option CompositeLight :=
  let scale := if scale ≤ 0 then c.brtscale else scale
  if value ≥ scale.toNat then c.goMax duration
  else if value = 0 then c.goOff duration
  else c.goValueComposite (curveMap c.luma value c.getMaxValue scale.toNat) duration

/-- `goStepScaled` on a composite (`GenericLight::goStepScaled` with the
composite's getters), with the same unsigned 32-bit wrap as the leaf version. -/
def goStepScaled (c : CompositeLight) (step : Int) (scale : Int) (duration : Int) :
    Option CompositeLight :=
  if step = 0 then some c
  else
    let cur : Nat := c.getValueScaled scale
    let sum : Nat := (((cur : Int) + step) % (U32 : Int)).toNat
    if sum = 0 then c.goOff (-1)
    else c.goValueScaled sum scale duration

end CompositeLight

/-- ESP event bases used by the light manager (`lightevents.hpp:39`). -/
inductive esp_event_base where
  | LCMD_EVENTS
  | LSTATE_EVENTS
  | LSERVICE_EVENTS
  | RCMD_EVENTS
  | RSTATE_EVENTS
  | RSERVICE_EVENTS
deriving DecidableEq

/-- `light_event_id_t` (`lightevents.hpp:65`). -/
inductive light_event_id_t where
  | noop
  | lce_start
  | goValue
  | goValueScaled
  | goMax
  | goMin
  | goOn
  | goOff
  | goToggle
  | goIncr
  | goDecr
  | goStep
  | goStepScaled
  | lce_end
  | lse_start
  | stateReport
  | stateUpdate
  | lse_end
  | se_start
  | echoRq
  | echoRpl
  | getState
  | se_end
deriving DecidableEq

/-- `ID_ANONYMOUS` (`lightevents.hpp:47`). -/
def ID_ANONYMOUS : Nat := 0

/-- `ID_ANY`, the broadcast / any-destination sentinel (`lightevents.hpp:48`). -/
def ID_ANY : Nat := 0xffff

/-- `local_peers_id_t` (`lightevents.hpp:99`): 16-bit source and destination ids. -/
structure local_peers_id_t where
  src : Nat
  dst : Nat
deriving DecidableEq

/-- `local_srvc_evt` (`lightevents.hpp:108`). -/
structure local_srvc_evt where
  event : light_event_id_t
  id : local_peers_id_t
  value : Nat
deriving DecidableEq

/-- `local_cmd_evt` (`lightevents.hpp:121`). -/
structure local_cmd_evt where
  event : light_event_id_t
  id : local_peers_id_t
  value : Nat
  step : Int
  scale : Int
  fade_duration : Int
deriving DecidableEq

/-- An `Evt_subscription` as `Eclo` stores it (`lightevents.hpp:143`): event
base, group id, and the two permission bits of `grpmode`
(`GRP_BIT_R = 0`, `GRP_BIT_W = 1`, `lightevents.hpp:55`). -/
structure Evt_subscription where
  base : esp_event_base
  gid : Int
  readbit : Bool
  writebit : Bool
deriving DecidableEq

/-- The `Eclo` (event-controlled light object) state the claims need
(`lightmanager.hpp:46`): its own id, the subscription list, and the owned light. -/
structure Eclo where
  myid : Nat
  subscr : List Evt_subscription
  light : GLight
deriving DecidableEq

namespace Eclo

/-- `Eclo::subscr_by_gid` (`lightmanager.cpp:224`): first subscription whose
group id matches.  The parameter is declared `uint16_t`, so the caller's
`int32_t` group id is converted modulo `2^16` at the call. -/
def subscr_by_gid (e : Eclo) (gid : Nat) : Option Evt_subscription :=
  e.subscr.find? (fun s => decide (s.gid = (gid : Int)))

/-- `Eclo::evt_cmd_runner` (`lightmanager.cpp:163`): map the command event id to
the corresponding light method, forwarding the message's value/step/scale/
duration fields; unknown operations are ignored. -/
def evt_cmd_runner (light : GLight) (cmd : local_cmd_evt) : GLight :=
  match cmd.event with
  | light_event_id_t.goValue => light.goValue cmd.value cmd.fade_duration
  | light_event_id_t.goValueScaled => light.goValueScaled cmd.value cmd.scale cmd.fade_duration
  | light_event_id_t.goMax => light.goMax cmd.fade_duration
  | light_event_id_t.goMin => light.goMin cmd.fade_duration
  | light_event_id_t.goOn => light.goOn cmd.fade_duration
  | light_event_id_t.goOff => light.goOff cmd.fade_duration
  | light_event_id_t.goToggle => light.goToggle cmd.fade_duration
  | light_event_id_t.goIncr => light.goIncr cmd.fade_duration
  | light_event_id_t.goDecr => light.goDecr cmd.fade_duration
  | light_event_id_t.goStep => light.goStep cmd.step cmd.fade_duration
  | light_event_id_t.goStepScaled => light.goStepScaled cmd.step cmd.scale cmd.fade_duration
  | _ => light

/-- Command branch of `Eclo::event_picker` (`lightmanager.cpp:109`): look the
group up in the subscription table (the `int32_t` group id is truncated to
`uint16_t` by `subscr_by_gid`'s parameter); an unregistered group is dropped,
and the command runner executes only when the subscription's read bit is set. -/
def event_picker_cmd (e : Eclo) (gid : Int) (cmd : local_cmd_evt) : Eclo :=
  match e.subscr_by_gid ((gid % (65536 : Int)).toNat) with
  | none => e
  | some sub =>
      if sub.readbit then { e with light := evt_cmd_runner e.light cmd } else e

/-- What the service branch of `event_picker` emits. -/
inductive SrvcReply where
  | ignored
  | pong (gid : Int) (dst : Nat)
  | stateReport (gid : Int) (dst : Nat)
deriving DecidableEq

/-- Service branch of `Eclo::event_picker` (`lightmanager.cpp:126`).  The guard
is transcribed exactly as written in the source:
`if (e->id.dst != myid || e->id.dst != ID_ANY) return;` — a disjunction.  An
`echoRq` that passes the guard is answered with `evt_pong_post(gid, e.id.src)`,
a `getState` with `evt_state_post(stateReport, gid, e.id.src)`; anything else
returns. -/
def event_picker_srvc (myid : Nat) (gid : Int) (e : local_srvc_evt) : SrvcReply :=
  if e.id.dst ≠ myid ∨ e.id.dst ≠ ID_ANY then SrvcReply.ignored
  else
    match e.event with
    | light_event_id_t.echoRq => SrvcReply.pong gid e.id.src
    | light_event_id_t.getState => SrvcReply.stateReport gid e.id.src
    | _ => SrvcReply.ignored

/-- The group ids the `onChange` lambda installed by the `Eclo` constructor
(`lightmanager.cpp:58`) posts a `stateUpdate` to: it walks the subscription
list and skips entries whose base is not `LSTATE_EVENTS` or whose write bit is
clear. -/
def onChange_posts (e : Eclo) : List Int :=
  (e.subscr.filter
      (fun i => decide (i.base = esp_event_base.LSTATE_EVENTS) && i.writebit)).map
    (fun i => i.gid)

end Eclo

/-! Spec-side definitions used as refinement targets, and concrete fixtures. -/

/-- The incremental distribution in the spec's words (§4.2): each member in
order receives `min(remaining, member.maxValue)` and the remainder shrinks by
the assignment. -/
def incrementalAssign : List Nat → Nat → List Nat
  | [], _ => []
  | m :: rest, r => min r m :: incrementalAssign rest (r - min r m)

/-- The per-member end state of a phase-shift command `value` for the member at
ordinal `i`: duty committed to `value` and phase offset
`(value * i) mod 2^32 mod maxValue` (the product is evaluated in `uint32_t`). -/
def psFinal (value : Nat) (i : Nat) (m : MemberLight) : MemberLight :=
  { m with value := value, dutyShift := value * i % U32 % m.maxValue }

/-- The member list a phase-shift command should produce, starting at ordinal
`c`. -/
def psTargets : List (Nat × MemberLight) → Nat → Nat → List (Nat × MemberLight)
  | [], _, _ => []
  | p :: rest, value, c => (p.1, psFinal value c p.2) :: psTargets rest value (c + 1)

/-- The spec's invariant for `combined_value` (§3, "cached aggregate ceiling"):
sum of the members' max values for the incremental policy, the first member's
max value (0 when empty) for equal/phaseshift. -/
def combinedInv (c : CompositeLight) : Prop :=
  match c.ps with
  | power_share_t.incremental =>
      c.combined_value = (c.ls.map (fun p => p.2.maxValue)).sum
  | _ =>
      c.combined_value =
        match c.ls with
        | [] => 0
        | p :: _ => p.2.maxValue

/-- A freshly constructed dimmable member of the given max value (linear curve,
duty 0, duty shift 0, rated power 1). -/
def mkDim (maxv : Nat) : MemberLight :=
  { kind := lightsource_t.dimmable, curve := curve.linear, maxValue := maxv,
    value := 0, dutyShift := 0, power := 1 }

/-- The state produced by the `CompositeLight(lightsource_t, power_share_t)`
constructor (`light_generics.hpp:279`): `GenericLight(composite, 0)` gives
power 0, linear curve, default fade time 1000 and default scale 100;
`combined_value` starts at 0 and the member list is empty. -/
def emptyComposite (t : lightsource_t) (share : power_share_t) : CompositeLight :=
  { sub_type := t, ps := share, combined_value := 0, luma := curve.linear,
    fadetime := 1000, brtscale := 100, power := 0, ls := [] }

/-- Incremental composite of three dimmable members with max values 10, 20, 5
(the spec's §8 example), built through `addLight`. -/
def incDemo : CompositeLight :=
  (((((emptyComposite lightsource_t.dimmable power_share_t.incremental).addLight
      (mkDim 10) 1).2.addLight (mkDim 20) 2).2).addLight (mkDim 5) 3).2

/-- Phase-shift composite of three equal dimmable members with max value 100
(the spec's §8 example), built through `addLight`. -/
def psDemo : CompositeLight :=
  (((((emptyComposite lightsource_t.dimmable power_share_t.phaseshift).addLight
      (mkDim 100) 1).2.addLight (mkDim 100) 2).2).addLight (mkDim 100) 3).2

/-- A dimmable light with max value 10 at value 0, all other fields at the
`GenericLight` defaults. -/
def gMax10 : GLight :=
  { value := 0, maxValue := 10, luma := curve.linear, fadetime := 1000,
    brtscale := 100, increment := 10, power := 1 }

/-- A dimmable light with max value 255 whose committed raw value is 13, all
other fields at the `GenericLight` defaults; its scaled value at scale 100 is
`13 * 100 / 255 = 5`. -/
def gDim255 : GLight :=
  { value := 13, maxValue := 255, luma := curve.linear, fadetime := 1000,
    brtscale := 100, increment := 10, power := 1 }

/-- A command message addressed to node 12 telling it to go to maximum. -/
def cmdDemo : local_cmd_evt :=
  { event := light_event_id_t.goMax, id := { src := 1, dst := 12 }, value := 0,
    step := -1, scale := -1, fade_duration := -1 }

/-- An event node owning `gDim255`, subscribed to group 7 with neither read nor
write permission. -/
def ecloDemo : Eclo :=
  { myid := 12,
    subscr := [{ base := esp_event_base.LCMD_EVENTS, gid := 7, readbit := false,
                 writebit := false }],
    light := gDim255 }

/-! Helper lemmas (shared between claims). -/

theorem goValueIncremental_map_value (ls : List (Nat × MemberLight)) (v : Nat) (d : Int) :
    (goValueIncremental ls v d).map (fun p => p.2.value) =
      incrementalAssign (ls.map (fun p => p.2.maxValue)) v := by
  induction ls generalizing v with
  | nil => rfl
  | cons p rest ih =>
    by_cases h : v ≥ p.2.maxValue
    · simp only [goValueIncremental, if_pos h, List.map_cons, incrementalAssign,
        Nat.min_eq_right h, MemberLight.fade_to_value, ih]
    · have hlt : v < p.2.maxValue := Nat.lt_of_not_le h
      simp only [goValueIncremental, if_neg h, List.map_cons, incrementalAssign,
        Nat.min_eq_left (Nat.le_of_lt hlt), MemberLight.fade_to_value, ih,
        Nat.sub_self]

theorem incrementalAssign_le (ms : List Nat) (r i : Nat) :
    (incrementalAssign ms r).getD i 0 ≤ ms.getD i 0 := by
  induction ms generalizing r i with
  | nil => simp [incrementalAssign]
  | cons m rest ih =>
    cases i with
    | zero => simp [incrementalAssign]
    | succ j => simpa [incrementalAssign] using ih (r - min r m) j

theorem linmap_unmap_le (v M s : Nat) : v * M / s * s / M ≤ v := by
  rcases Nat.eq_zero_or_pos M with hM | hM
  · simp [hM]
  · calc v * M / s * s / M ≤ v * M / M :=
          Nat.div_le_div_right (Nat.div_mul_le_self (v * M) s)
    _ = v := Nat.mul_div_cancel _ hM

theorem linmap_unmap_ge (v M s : Nat) (hs : 0 < s) (hsm : s ≤ M) :
    v ≤ v * M / s * s / M + 1 := by
  have hM : 0 < M := Nat.lt_of_lt_of_le hs hsm
  have hmod := Nat.div_add_mod' (v * M) s
  have hr : v * M % s < s := Nat.mod_lt _ hs
  have hqs : v * M / s * s = v * M - v * M % s := by omega
  have key : (v - 1) * M ≤ v * M / s * s := by
    rw [hqs, Nat.sub_mul, Nat.one_mul]
    exact Nat.sub_le_sub_left (Nat.le_of_lt (Nat.lt_of_lt_of_le hr hsm)) (v * M)
  have h2 : v - 1 ≤ v * M / s * s / M := by
    calc v - 1 = (v - 1) * M / M := (Nat.mul_div_cancel _ hM).symm
    _ ≤ v * M / s * s / M := Nat.div_le_div_right key
  omega

/-! Claim theorems. -/

/-- C10: `CompositeLight::setMaxPower(p)` leaves the composite's entire state
(in particular its stored max power) unchanged and returns the existing
`power`, for every composite and every argument. -/
theorem setMaxPower_frame (c : CompositeLight) (p : ℚ) :
    c.setMaxPower p = (c.power, c) := rfl

/-- C8, counterexample to the claim as stated: a constant-kind light that is
off (`value = 0`) with max power 5 reports current power 5, not 0 — the
`ConstantLight::getCurrentPower` override performs no on/off check. -/
theorem constant_getCurrentPower_ctrex :
    ConstantLight.getCurrentPower { power := 5, value := 0 } = 5 ∧
    ConstantLight.getCurrentPower { power := 5, value := 0 } ≠ 0 := by
  constructor
  · rfl
  · decide

/-- C8 (amended): the default `getCurrentPower` is `maxPower * value / maxValue`;
the `ConstantLight` override returns `maxPower` unconditionally (no
interpolation and no on/off check), and it is the GPIO constant-light subclass
that returns `maxPower` when on and 0 when off. -/
theorem getCurrentPower_formulas (g : GLight) (l : ConstantLight) (gp : GPIOLight) :
    g.getCurrentPower = g.power * (g.value : ℚ) / (g.maxValue : ℚ) ∧
    l.getCurrentPower = l.power ∧
    gp.getCurrentPower = (if gp.value ≠ 0 then gp.power else 0) :=
  ⟨rfl, rfl, rfl⟩

/-- C6: the service-dispatch guard `if (e->id.dst != myid || e->id.dst != ID_ANY)`
is a disjunction, so an echo request addressed exactly to the node (node id 5,
destination 5) is dropped instead of being answered with an echo reply — the
disjunct `dst ≠ ID_ANY` holds.  This contradicts the comment on the same source
line ("ignore messages not to me or not broadcast") and the spec. -/
theorem event_picker_srvc_drops_direct_echo :
    Eclo.event_picker_srvc 5 5
        { event := light_event_id_t.echoRq, id := { src := 7, dst := 5 }, value := 0 } =
      Eclo.SrvcReply.ignored := by decide

/-- C7: the clamp-at-zero test `cur + step <= 0` in `goStepScaled` is evaluated
in unsigned 32-bit arithmetic.  For a light whose scaled value is 5, a step of
-10 wraps to `2^32 - 5`, the test fails, and `goValueScaled` receives a huge
value that clamps to `goMax`: the light is driven to its maximum (255), not
off, contradicting the source comment "do not go to negative" and the spec. -/
theorem goStepScaled_negative_step_goes_max :
    gDim255.getValueScaled 100 = 5 ∧
    (gDim255.goStepScaled (-10) 100 0).value = gDim255.maxValue ∧
    gDim255.maxValue = 255 := by decide

/-- C1: an incremental brightness command visits members in insertion order,
assigning each `min(remaining, maxValue)` and subtracting the assignment from
the remainder (first conjunct, against the spec-side `incrementalAssign`); no
member is ever driven above its max (second conjunct); and on the three-member
{10, 20, 5} composite, `goValue 25` yields {10, 15, 0}, `goValue 0` yields
{0, 0, 0} and `goValue 35` yields {10, 20, 5}. -/
theorem goValueIncremental_spec :
    (∀ (ls : List (Nat × MemberLight)) (v : Nat) (d : Int),
       (goValueIncremental ls v d).map (fun p => p.2.value) =
         incrementalAssign (ls.map (fun p => p.2.maxValue)) v) ∧
    (∀ (ls : List (Nat × MemberLight)) (v : Nat) (d : Int) (i : Nat),
       ((goValueIncremental ls v d).map (fun p => p.2.value)).getD i 0 ≤
         (ls.map (fun p => p.2.maxValue)).getD i 0) ∧
    (incDemo.goValue 25 (-1)).map (fun c => c.ls.map (fun p => p.2.value)) =
        some [10, 15, 0] ∧
    (incDemo.goValue 0 (-1)).map (fun c => c.ls.map (fun p => p.2.value)) =
        some [0, 0, 0] ∧
    (incDemo.goValue 35 (-1)).map (fun c => c.ls.map (fun p => p.2.value)) =
        some [10, 20, 5] := by
  refine ⟨goValueIncremental_map_value, ?_, by decide, by decide, by decide⟩
  intro ls v d i
  rw [goValueIncremental_map_value]
  exact incrementalAssign_le _ v i

/-- C3, counterexample to the claim as stated: with max value 10 and scale 100,
setting scaled value 5 commits raw value `5 * 10 / 100 = 0`, which reads back
as 0 — off by 5, far beyond ±1.  No integer map into the 11 raw values can
round-trip a 100-point scale. -/
theorem goValueScaled_roundtrip_ctrex :
    (gMax10.goValueScaled 5 100 0).getValueScaled 100 + 1 < 5 := by decide

/-- C3 (amended): for a dimmable light with the (spec-modelled) linear curve
and any scale not exceeding the raw range (`0 < v < s ≤ maxValue`), reading the
scaled value back after setting it round-trips within one unit:
the read-back value lies in `[v - 1, v]`. -/
theorem goValueScaled_roundtrip (g : GLight) (v : Nat) (s d : Int)
    (_hl : g.luma = curve.linear)
    (hv : 0 < v) (hvs : (v : Int) < s) (hsm : s ≤ (g.maxValue : Int)) :
    (g.goValueScaled v s d).getValueScaled s ≤ v ∧
    v ≤ (g.goValueScaled v s d).getValueScaled s + 1 := by
  have hs : (0 : Int) < s := lt_trans (by exact_mod_cast hv) hvs
  have hsle : ¬ s ≤ 0 := not_le.mpr hs
  have hsN : s.toNat = s := Int.toNat_of_nonneg (le_of_lt hs)
  have hvlt : v < s.toNat := by
    have := hvs
    omega
  have hsmN : s.toNat ≤ g.maxValue := by omega
  have hsNpos : 0 < s.toNat := by omega
  have hMpos : 0 < g.maxValue := Nat.lt_of_lt_of_le hsNpos hsmN
  have hset : (g.goValueScaled v s d).value = v * g.maxValue / s.toNat := by
    simp only [GLight.goValueScaled, if_neg hsle, if_neg (Nat.not_le.mpr hvlt),
      if_neg (Nat.pos_iff_ne_zero.mp hv), GLight.fade_to_value, curveMap,
      if_neg (Nat.pos_iff_ne_zero.mp hsNpos)]
  have hmaxeq : (g.goValueScaled v s d).maxValue = g.maxValue := by
    simp only [GLight.goValueScaled, if_neg hsle]
    split <;> [rfl; skip]
    split <;> rfl
  have hluma : (g.goValueScaled v s d).luma = g.luma := by
    simp only [GLight.goValueScaled, if_neg hsle]
    split <;> [rfl; skip]
    split <;> rfl
  have hget : (g.goValueScaled v s d).getValueScaled s =
      v * g.maxValue / s.toNat * s.toNat / g.maxValue := by
    simp only [GLight.getValueScaled, if_neg hsle, curveUnMap, hluma, hmaxeq,
      hset, if_neg (Nat.pos_iff_ne_zero.mp hMpos)]
  rw [hget]
  exact ⟨linmap_unmap_le v g.maxValue s.toNat,
    linmap_unmap_ge v g.maxValue s.toNat hsNpos hsmN⟩

/-- Witness for the C3 round-trip theorem at a concrete input: on `gDim255`
(max value 255), setting scaled value 50 at scale 100 reads back as 49 — within
the allowed unit. -/
theorem goValueScaled_roundtrip_witness :
    (gDim255.goValueScaled 50 100 0).getValueScaled 100 ≤ 50 ∧
    50 ≤ (gDim255.goValueScaled 50 100 0).getValueScaled 100 + 1 :=
  goValueScaled_roundtrip gDim255 50 100 0 rfl (by decide) (by decide) (by decide)

/-- C5: `addLight` fails on a duplicate id leaving the whole composite state
(in particular `combined_value` and `power`) unchanged; fails on a mismatched
kind, also without mutation; on success it reports `true`, appends the member,
accumulates the member's max power, and updates `combined_value` per policy
(running sum for incremental, first member's max — i.e. unchanged when already
nonempty — for equal/phaseshift); and it preserves the spec's `combinedMax`
invariant (sum of member max values for incremental, first member's max value
for equal/phaseshift). -/
theorem addLight_spec (c : CompositeLight) (gl : MemberLight) (id : Nat) :
    (c.exist id = true → c.addLight gl id = (false, c)) ∧
    (gl.kind ≠ c.sub_type → c.addLight gl id = (false, c)) ∧
    (c.exist id = false → gl.kind = c.sub_type →
      (c.addLight gl id).1 = true ∧
      (c.addLight gl id).2.power = c.power + gl.power ∧
      (c.addLight gl id).2.ls = c.ls ++ [(id, gl)] ∧
      (c.addLight gl id).2.combined_value =
        (match c.ps with
         | power_share_t.incremental => c.combined_value + gl.maxValue
         | _ => if c.ls = [] then gl.maxValue else c.combined_value)) ∧
    (combinedInv c → combinedInv (c.addLight gl id).2) := by
  refine ⟨?_, ?_, ?_, ?_⟩
  · intro h
    simp [CompositeLight.addLight, h]
  · intro h
    by_cases he : c.exist id
    · simp [CompositeLight.addLight, he]
    · simp [CompositeLight.addLight, he, h]
  · intro he hk
    have hempty : (c.ls ++ [(id, gl)]).length = 1 ↔ c.ls = [] := by
      simp [List.length_append]
    cases hps : c.ps with
    | incremental =>
      by_cases hb : gl.curve = curve.binary <;>
        simp [CompositeLight.addLight, he, hk, hps, hb]
    | equal =>
      by_cases hnil : c.ls = [] <;>
        simp [CompositeLight.addLight, he, hk, hps, hempty, hnil]
    | phaseshift =>
      by_cases hnil : c.ls = [] <;>
        simp [CompositeLight.addLight, he, hk, hps, hempty, hnil]
  · intro hinv
    by_cases he : c.exist id
    · simpa [CompositeLight.addLight, he] using hinv
    by_cases hk : gl.kind = c.sub_type
    · cases hps : c.ps with
      | incremental =>
        simp only [combinedInv, hps] at hinv
        by_cases hb : gl.curve = curve.binary <;>
          simp [CompositeLight.addLight, he, hk, hps, hb, combinedInv, hinv]
      | equal =>
        simp only [combinedInv, hps] at hinv
        cases hnil : c.ls with
        | nil =>
          simp [CompositeLight.addLight, he, hk, hps, hnil, combinedInv]
        | cons p t =>
          simp [CompositeLight.addLight, he, hk, hps, hnil, combinedInv]
          simpa [hnil] using hinv
      | phaseshift =>
        simp only [combinedInv, hps] at hinv
        cases hnil : c.ls with
        | nil =>
          simp [CompositeLight.addLight, he, hk, hps, hnil, combinedInv]
        | cons p t =>
          simp [CompositeLight.addLight, he, hk, hps, hnil, combinedInv]
          simpa [hnil] using hinv
    · simpa [CompositeLight.addLight, he, hk] using hinv

/-- Witness for `addLight_spec`: on the {10, 20, 5} composite, re-adding id 1
fails without mutation, while adding a fresh id 9 of the matching kind
succeeds. -/
theorem addLight_spec_witness :
    incDemo.addLight (mkDim 4) 1 = (false, incDemo) ∧
    (incDemo.addLight (mkDim 4) 9).1 = true :=
  ⟨(addLight_spec incDemo (mkDim 4) 1).1 (by decide),
   ((addLight_spec incDemo (mkDim 4) 9).2.2.1 (by decide) rfl).1⟩

/-- C4: a command message on a group for which the node holds no read
permission (no subscription for that group has the read bit) leaves the owned
light unchanged, and the `onChange` state publication never posts to a group
for which the node holds no write permission.  Group ids are the 16-bit
addressable ones (`subscr_by_gid` truncates its argument to `uint16_t`, and
every registration uses the 16-bit node id). -/
theorem event_picker_perm_gating (e : Eclo) (gid : Int) (cmd : local_cmd_evt) (g : Int)
    (h0 : 0 ≤ gid) (h1 : gid < 65536)
    (hr : ∀ s ∈ e.subscr, s.gid = gid → s.readbit = false)
    (hw : ∀ s ∈ e.subscr, s.gid = g → s.writebit = false) :
    (e.event_picker_cmd gid cmd).light = e.light ∧ g ∉ e.onChange_posts := by
  constructor
  · have hg : (((gid % (65536 : Int)).toNat : Nat) : Int) = gid := by
      rw [Int.toNat_of_nonneg (Int.emod_nonneg _ (by norm_num))]
      exact Int.emod_eq_of_lt h0 h1
    unfold Eclo.event_picker_cmd Eclo.subscr_by_gid
    cases hfind : e.subscr.find?
        (fun s => decide (s.gid = (((gid % (65536 : Int)).toNat : Nat) : Int))) with
    | none => simp [hfind]
    | some sub =>
      have hmem : sub ∈ e.subscr := List.mem_of_find?_eq_some hfind
      have hgid : sub.gid = gid := by
        have := List.find?_some hfind
        simp only [decide_eq_true_eq] at this
        rw [this, hg]
      have : sub.readbit = false := hr sub hmem hgid
      simp [hfind, this]
  · intro hmem
    unfold Eclo.onChange_posts at hmem
    rcases List.mem_map.mp hmem with ⟨s, hs, hgid⟩
    rcases List.mem_filter.mp hs with ⟨hsmem, hcond⟩
    have hw' : s.writebit = false := hw s hsmem hgid
    simp [hw'] at hcond

/-- Witness for `event_picker_perm_gating`: the demo node (subscribed to group
7 with no permissions) ignores a command on group 7 and never posts to group
7. -/
theorem event_picker_perm_gating_witness :
    (ecloDemo.event_picker_cmd 7 cmdDemo).light = ecloDemo.light ∧
    (7 : Int) ∉ ecloDemo.onChange_posts :=
  event_picker_perm_gating ecloDemo 7 cmdDemo 7 (by decide) (by decide)
    (by decide) (by decide)

/-- C9: on a `CompositeLight` with no members (whose `combined_value` is 0, as
the constructor leaves it), every brightness operation is a safe no-op and
`getCurrentPower` is 0: each checked operation returns `some` — so no division
or modulus with a zero divisor is evaluated — with the state unchanged.
`goMax`/`goMin`/`goOn`/`goOff`/`goIncr`/`goDecr`/`goStep` are instances of the
`goValue`/`goStepScaled` conjuncts.  The curve math itself is spec-modelled
with the divide-by-zero guard the spec requires. -/
theorem empty_composite_safe (c : CompositeLight) (hls : c.ls = [])
    (hcv : c.combined_value = 0) (v : Nat) (s d step : Int) :
    c.getMaxValue = 0 ∧
    c.goValue v d = some c ∧
    c.goValueScaled v s d = some c ∧
    c.goStepScaled step s d = some c ∧
    c.goToggle d = some c ∧
    c.getCurrentPower = some 0 := by
  have hcomp : ∀ (w : Nat) (t : Int), c.goValueComposite w t = some c := by
    intro w t
    simp [CompositeLight.goValueComposite, hls]
  have hgo : ∀ (w : Nat) (t : Int), c.goValue w t = some c := by
    intro w t
    simp only [CompositeLight.goValue, hcomp]
  have hval : c.getValue = 0 := by
    cases hps : c.ps <;> simp [CompositeLight.getValue, CompositeLight.getValue_incremental,
      hls, hps]
  have hscaled : ∀ (w : Nat) (t : Int), c.goValueScaled w s t = some c := by
    intro w t
    simp only [CompositeLight.goValueScaled, CompositeLight.goMax, CompositeLight.goOff,
      hgo, hcomp, ite_self]
  refine ⟨hcv, hgo v d, hscaled v d, ?_, ?_, ?_⟩
  · simp only [CompositeLight.goStepScaled, CompositeLight.goOff, hgo, hscaled, ite_self]
  · simp only [CompositeLight.goToggle, CompositeLight.goOff, CompositeLight.goOn,
      CompositeLight.goMax, hgo, ite_self]
  · cases hps : c.ps <;>
      simp [CompositeLight.getCurrentPower, hls, hps] <;>
      exact ⟨[], rfl, rfl⟩

/-- Witness for `empty_composite_safe`: a freshly constructed empty phase-shift
composite reports zero power and ignores a `goValue`. -/
theorem empty_composite_safe_witness :
    (emptyComposite lightsource_t.dimmable power_share_t.phaseshift).goValue 7 (-1) =
      some (emptyComposite lightsource_t.dimmable power_share_t.phaseshift) ∧
    (emptyComposite lightsource_t.dimmable power_share_t.phaseshift).getCurrentPower =
      some 0 :=
  ⟨(empty_composite_safe (emptyComposite lightsource_t.dimmable power_share_t.phaseshift)
      rfl rfl 7 100 (-1) (-3)).2.1,
   (empty_composite_safe (emptyComposite lightsource_t.dimmable power_share_t.phaseshift)
      rfl rfl 7 100 (-1) (-3)).2.2.2.2.2⟩

theorem psStep1_fst_false (p : Nat × MemberLight) (v : Nat) (d : Int) (ds : Nat)
    (h : (psStep1 p v d ds).2 = false) :
    (psStep1 p v d ds).1 = { p.2 with value := v, dutyShift := ds } := by
  by_cases hd0 : d ≠ 0
  · by_cases hov : (p.2.dutyShift + v) % U32 > p.2.maxValue
    · simp [psStep1, hd0, hov, MemberLight.setDutyShift1, MemberLight.fade_to_value]
    · simp [psStep1, hd0, hov] at h
  · simp [psStep1, hd0, MemberLight.setDutyShift2]

theorem psStep1_fst_true (p : Nat × MemberLight) (v : Nat) (d : Int) (ds : Nat)
    (h : (psStep1 p v d ds).2 = true) :
    (psStep1 p v d ds).1 = { p.2 with value := v } := by
  by_cases hd0 : d ≠ 0
  · by_cases hov : (p.2.dutyShift + v) % U32 > p.2.maxValue
    · simp [psStep1, hd0, hov] at h
    · simp [psStep1, hd0, hov, MemberLight.fade_to_value]
  · simp [psStep1, hd0] at h

theorem psPass1_flags_low (v : Nat) (d : Int) :
    ∀ (ls : List (Nat × MemberLight)) (c : Nat) (ls1 : List (Nat × MemberLight)) (flags : Nat),
      psPass1 ls v d c = some (ls1, flags) → ∀ j, j < c → flags.testBit j = false := by
  intro ls
  induction ls with
  | nil =>
    intro c ls1 flags h j _
    simp only [psPass1, Option.some.injEq, Prod.mk.injEq] at h
    rw [← h.2]
    exact Nat.zero_testBit j
  | cons p rest ih =>
    intro c ls1 flags h j hj
    simp only [psPass1] at h
    cases hmod : modChk (v * c % U32) p.2.maxValue with
    | none => rw [hmod] at h; exact absurd h (by simp)
    | some ds =>
      rw [hmod] at h
      cases hrec : psPass1 rest v d (c + 1) with
      | none => rw [hrec] at h; exact absurd h (by simp)
      | some pr =>
        obtain ⟨rest', flagsR⟩ := pr
        rw [hrec] at h
        simp only [Option.some.injEq, Prod.mk.injEq] at h
        have hfr : flagsR.testBit j = false :=
          ih (c + 1) rest' flagsR hrec j (Nat.lt_succ_of_lt hj)
        rw [← h.2]
        cases hb : (psStep1 p v d ds).2 with
        | false => simpa [hb] using hfr
        | true =>
          simp only [hb, if_true, Nat.testBit_lor, hfr,
            Nat.testBit_two_pow_of_ne (Nat.ne_of_gt hj), Bool.or_self]

theorem psPass2_congr (v : Nat) :
    ∀ (ls : List (Nat × MemberLight)) (c : Nat) (f g : Nat),
      (∀ j, c ≤ j → f.testBit j = g.testBit j) → psPass2 ls v f c = psPass2 ls v g c := by
  intro ls
  induction ls with
  | nil => intro _ _ _ _; rfl
  | cons p rest ih =>
    intro c f g h
    have hc : f.testBit c = g.testBit c := h c le_rfl
    have ht := ih (c + 1) f g (fun j hj => h j (le_trans (Nat.le_succ c) hj))
    simp only [psPass2, hc, ht]

theorem psPass2_zero (v : Nat) :
    ∀ (ls : List (Nat × MemberLight)) (c : Nat), psPass2 ls v 0 c = some ls := by
  intro ls
  induction ls with
  | nil => intro _; rfl
  | cons p rest ih =>
    intro c
    simp [psPass2, Nat.zero_testBit, ih]

theorem psPass12_target (v : Nat) (d : Int) :
    ∀ (ls : List (Nat × MemberLight)) (c : Nat),
      (∀ p ∈ ls, 0 < p.2.maxValue) →
      ∃ ls1 flags, psPass1 ls v d c = some (ls1, flags) ∧
        psPass2 ls1 v flags c = some (psTargets ls v c) := by
  intro ls
  induction ls with
  | nil =>
    intro c _
    exact ⟨[], 0, rfl, rfl⟩
  | cons p rest ih =>
    intro c hmax
    have hp : 0 < p.2.maxValue := hmax p (List.mem_cons_self p rest)
    have hrestmax : ∀ q ∈ rest, 0 < q.2.maxValue :=
      fun q hq => hmax q (List.mem_cons_of_mem p hq)
    obtain ⟨rest1, flagsR, h1, h2⟩ := ih (c + 1) hrestmax
    have hmod : modChk (v * c % U32) p.2.maxValue =
        some (v * c % U32 % p.2.maxValue) := by
      simp [modChk, Nat.pos_iff_ne_zero.mp hp]
    have hflow : flagsR.testBit c = false :=
      psPass1_flags_low v d rest (c + 1) rest1 flagsR h1 c (Nat.lt_succ_self c)
    cases hb : (psStep1 p v d (v * c % U32 % p.2.maxValue)).2 with
    | false =>
      refine ⟨(p.1, (psStep1 p v d (v * c % U32 % p.2.maxValue)).1) :: rest1, flagsR, ?_, ?_⟩
      · simp only [psPass1, hmod, h1, hb, if_false, Bool.false_eq_true]
      · simp only [psPass2, hflow, h2, psTargets, Bool.false_eq_true, if_false,
          psStep1_fst_false p v d _ hb, psFinal]
    | true =>
      refine ⟨(p.1, (psStep1 p v d (v * c % U32 % p.2.maxValue)).1) :: rest1,
        flagsR ||| 2 ^ c, ?_, ?_⟩
      · simp only [psPass1, hmod, h1, hb, if_true]
      · have hbit : (flagsR ||| 2 ^ c).testBit c = true := by
          simp [Nat.testBit_lor, Nat.testBit_two_pow_self]
        have hcongr : psPass2 rest1 v (flagsR ||| 2 ^ c) (c + 1) =
            psPass2 rest1 v flagsR (c + 1) := by
          refine psPass2_congr v rest1 (c + 1) _ _ (fun j hj => ?_)
          simp [Nat.testBit_lor,
            Nat.testBit_two_pow_of_ne (by omega : c ≠ j)]
        simp only [psPass2, hbit, if_true, hmod, hcongr, h2, psTargets,
          psStep1_fst_true p v d _ hb, MemberLight.setDutyShift2, psFinal]

/-- C2 (amended): a phase-shift brightness command on a composite whose first
member is dimmable assigns the member at 0-based ordinal `i` the phase offset
`(v * i) mod 2^32 mod maxValue` — the product is evaluated in `uint32_t`
arithmetic, and equals `(v * i) mod maxValue` whenever `v * i < 2^32` — while
committing the duty value `v` (first conjunct, against `psTargets`/`psFinal`);
when the first member's kind is not dimmable the operation falls back to the
equal policy (second conjunct); and on 3 equal dimmable members with max value
100, `goValue 30` yields phase offsets {0, 30, 60} (third conjunct). -/
theorem goValuePhaseShift_spec :
    (∀ (first : Nat × MemberLight) (rest : List (Nat × MemberLight)) (v : Nat) (d : Int),
       (∀ p ∈ first :: rest, 0 < p.2.maxValue) →
       first.2.kind = lightsource_t.dimmable →
       goValuePhaseShift (first :: rest) v d = some (psTargets (first :: rest) v 0)) ∧
    (∀ (first : Nat × MemberLight) (rest : List (Nat × MemberLight)) (v : Nat) (d : Int),
       first.2.kind ≠ lightsource_t.dimmable →
       goValuePhaseShift (first :: rest) v d = some (goValueEqual (first :: rest) v d)) ∧
    (psDemo.goValue 30 (-1)).map (fun c => c.ls.map (fun p => p.2.dutyShift)) =
      some [0, 30, 60] := by
  refine ⟨?_, ?_, by decide⟩
  · intro first rest v d hmax hk
    obtain ⟨ls1, flags, h1, h2⟩ := psPass12_target v d (first :: rest) 0 hmax
    unfold goValuePhaseShift
    rw [h1]
    simp only [hk, ne_eq, not_true_eq_false, if_false, Bool.false_eq_true]
    by_cases hf : flags = 0
    · subst hf
      have hz := psPass2_zero v ls1 0
      rw [hz] at h2
      simp only [Option.some.injEq] at h2
      simp [h2]
    · simp only [hf, ne_eq, not_false_eq_true, if_true]
      exact h2
  · intro first rest v d hk
    unfold goValuePhaseShift
    simp [hk]

/-- Witness for `goValuePhaseShift_spec`: three dimmable members of max value
100 receive offsets 0, 30, 60 from a phase-shift command of value 30. -/
theorem goValuePhaseShift_spec_witness :
    goValuePhaseShift [(1, mkDim 100), (2, mkDim 100), (3, mkDim 100)] 30 1000 =
      some (psTargets [(1, mkDim 100), (2, mkDim 100), (3, mkDim 100)] 30 0) :=
  goValuePhaseShift_spec.1 (1, mkDim 100) [(2, mkDim 100), (3, mkDim 100)] 30 1000
    (by decide) rfl

/-- C2, counterexample to the claim as stated: with command value `2^31` on the
3-member max-100 phase-shift composite, the member at ordinal 2 receives offset
`(2^31 * 2) mod 2^32 mod 100 = 0`, whereas the claimed formula
`(v * i) mod maxValue` gives `(2^31 * 2) mod 100 = 96` — the `uint32_t` product
wraps. -/
theorem goValuePhaseShift_ctrex :
    (psDemo.goValue (2 ^ 31) (-1)).map (fun c => c.ls.map (fun p => p.2.dutyShift)) =
      some [0, 48, 0] ∧ 2 ^ 31 * 2 % 100 = 96 := by decide

end LightMgr
